import Mathlib

/-!
Verification of the CEL device-selector compilation and evaluation core
(vendor/k8s.io/dynamic-resource-allocation/cel/compile.go).

The general-purpose CEL engine (parser, type-checker, interpreter) is an
external collaborator of this code; it is modelled as an oracle recording
the outcome of each engine call (environment load, compile, output type,
checked-expression conversion, program instantiation, cost estimation,
context evaluation, native conversion).  Everything the repository itself
implements — the control flow of CompileCELExpression, qualified-name
parsing, attribute value resolution, device normalization into nested
domain-to-identifier maps, the default-value map wrapper, and the control
flow of DeviceMatches — is embedded directly from the source.
-/

namespace DRACel

/-- Error kinds of apiservercel.Error as used by compile.go:
ErrorTypeInvalid and ErrorTypeInternal. -/
inductive ErrorType
  | invalid
  | internal
deriving DecidableEq, Repr

/-- apiservercel.Error: a kind and a human-readable detail string. -/
structure CELError where
  type : ErrorType
  detail : String
deriving DecidableEq, Repr

/-- Static CEL types as compared by CompileCELExpression: the expected
cel.BoolType, the accepted cel.AnyType (the dynamic/any type), and any
other static type carrying its display name. -/
inductive CELType
  | bool
  | any
  | other (name : String)
deriving DecidableEq, Repr

/-- Display name of a static type, as produced by cel.Type.String(). -/
def CELType.typeString : CELType → String
  | .bool => "bool"
  | .any => "any"
  | .other n => n

/-- Result of env.EstimateCost: a worst-case cost bound (checker.CostEstimate.Max). -/
structure CostEstimate where
  max : Nat
deriving DecidableEq, Repr

/-- Outcomes of the opaque CEL engine calls made by CompileCELExpression,
in the order the code makes them: envset.Env, env.Compile (issues and, on
success, the AST output type), cel.AstToCheckedExpr, env.Program,
env.EstimateCost. -/
structure CELOracle where
  envError : Option String
  compileIssues : Option String
  outputType : CELType
  astToCheckedExprError : Option String
  programError : Option String
  estimateCost : Except String CostEstimate

/-- CompilationResult of compile.go.  The program handle, the environment
and the cached empty-map value are opaque engine objects; the model keeps
presence of the program handle (Program field nil or not), the structured
error, the echoed expression, the resolved output type and MaxCost. -/
structure CompilationResult where
  program : Option Unit
  error : Option CELError
  expression : String
  outputType : Option CELType
  maxCost : Nat
deriving DecidableEq, Repr

/-- The resultError closure inside CompileCELExpression: an error-carrying
CompilationResult with the expression echoed and every other field left at
its zero value (in particular no program handle). -/
def resultError (expression : String) (errorString : String) (errType : ErrorType) :
    CompilationResult :=
  { program := none
    error := some { type := errType, detail := errorString }
    expression := expression
    outputType := none
    maxCost := 0 }

/-- CompileCELExpression, stage by stage as in compile.go lines 109-170:
environment load, parse/type-check, output-type gate, checked-expression
conversion, program instantiation, then cost estimation (whose failure
keeps the already-built result and only attaches an Internal error,
leaving MaxCost at zero). -/
def CompileCELExpression (expression : String) (oracle : CELOracle) : CompilationResult :=
  match oracle.envError with
  | some e => resultError expression ("unexpected error loading CEL environment: " ++ e) .internal
  | none =>
    match oracle.compileIssues with
    | some issues => resultError expression ("compilation failed: " ++ issues) .invalid
    | none =>
      if oracle.outputType ≠ CELType.bool ∧ oracle.outputType ≠ CELType.any then
        resultError expression
          ("must evaluate to bool or the unknown type, not " ++ oracle.outputType.typeString)
          .invalid
      else
        match oracle.astToCheckedExprError with
        | some e => resultError expression ("unexpected compilation error: " ++ e) .internal
        | none =>
          match oracle.programError with
          | some e => resultError expression ("program instantiation failed: " ++ e) .internal
          | none =>
            let base : CompilationResult :=
              { program := some ()
                error := none
                expression := expression
                outputType := some oracle.outputType
                maxCost := 0 }
            match oracle.estimateCost with
            | .error e =>
              { base with error := some { type := .internal, detail := "cost estimation failed: " ++ e } }
            | .ok est => { base with maxCost := est.max }

/-- resourceapi.DeviceAttribute: at most one of the four value variants is
meant to be populated (pointer fields in Go, hence Option here). -/
structure DeviceAttribute where
  intValue : Option Int
  boolValue : Option Bool
  stringValue : Option String
  versionValue : Option String
deriving DecidableEq, Repr

/-- Native scalar produced by getAttributeValue.  A parsed semantic
version is kept as the text accepted by the external semver parser. -/
inductive AttrValue
  | int (i : Int)
  | bool (b : Bool)
  | string (s : String)
  | semver (v : String)
deriving DecidableEq, Repr

/-- An external parser for semantic-version text (semver.Parse is a vendored
collaborator outside this repository); it either rejects the text with an
error message or accepts it. -/
def SemverParser : Type := String → Except String String

/-- getAttributeValue (compile.go lines 175-192): a Go switch trying
IntValue, then BoolValue, then StringValue, then VersionValue; the version
text goes through the external semver parser; if no variant is populated
the result is the "unsupported attribute value" error. -/
def getAttributeValue (semverParse : SemverParser) (attr : DeviceAttribute) :
    Except String AttrValue :=
  match attr.intValue with
  | some i => .ok (.int i)
  | none =>
    match attr.boolValue with
    | some b => .ok (.bool b)
    | none =>
      match attr.stringValue with
      | some s => .ok (.string s)
      | none =>
        match attr.versionValue with
        | some vs =>
          match semverParse vs with
          | .ok v => .ok (.semver v)
          | .error e => .error ("parse semantic version: " ++ e)
        | none => .error "unsupported attribute value"

/-- An opaque capacity quantity (resource.Quantity through apiservercel.Quantity). -/
structure Quantity where
  value : Int
deriving DecidableEq, Repr

/-- The Device input of DeviceMatches: driver name plus flat
qualified-name-keyed attribute and capacity collections (Go maps,
modelled as association lists). -/
structure Device where
  driver : String
  attributes : List (String × DeviceAttribute)
  capacity : List (String × Quantity)

/-- Splits a character list at the first '/' (strings.Index): none when no
'/' occurs, otherwise the part before and the part after the first '/'. -/
def splitAtSlash : List Char → Option (List Char × List Char)
  | [] => none
  | c :: rest =>
    if c = '/' then some ([], rest)
    else
      match splitAtSlash rest with
      | none => none
      | some (d, i) => some (c :: d, i)

/-- parseQualifiedName (compile.go lines 292-298): split on the first '/';
absence of '/' yields (defaultDomain, whole name).  Total: never fails. -/
def parseQualifiedName (name : String) (defaultDomain : String) : String × String :=
  match splitAtSlash name.toList with
  | none => (defaultDomain, name)
  | some (d, i) => (String.mk d, String.mk i)

/-- Map insert with overwrite, the semantics of Go map assignment m[k] = v
on an association-list model. -/
def assocInsert (m : List (String × α)) (k : String) (v : α) : List (String × α) :=
  match m with
  | [] => [(k, v)]
  | (k0, v0) :: rest =>
    if k0 = k then (k, v) :: rest else (k0, v0) :: assocInsert rest k v

/-- The nested-map insertion of DeviceMatches (lines 206-209 and 215-218):
create the inner map for a domain on first use, then assign the identifier. -/
def insertNested (m : List (String × List (String × α))) (domain id : String) (v : α) :
    List (String × List (String × α)) :=
  match m with
  | [] => [(domain, [(id, v)])]
  | (d0, inner) :: rest =>
    if d0 = domain then (d0, assocInsert inner id v) :: rest
    else (d0, inner) :: insertNested rest domain id v

/-- The attribute normalization loop of DeviceMatches (lines 199-210),
with an explicit accumulator: resolve each attribute value, abort with an
error naming the qualified name on failure, otherwise split the name into
domain and identifier (driver as default domain) and insert. -/
def normalizeAttributesAux (semverParse : SemverParser) (driver : String)
    (acc : List (String × List (String × AttrValue))) :
    List (String × DeviceAttribute) →
      Except String (List (String × List (String × AttrValue)))
  | [] => .ok acc
  | (name, attr) :: rest =>
    match getAttributeValue semverParse attr with
    | .error e => .error ("attribute " ++ name ++ ": " ++ e)
    | .ok v =>
      normalizeAttributesAux semverParse driver
        (insertNested acc (parseQualifiedName name driver).1 (parseQualifiedName name driver).2 v)
        rest

/-- Attribute normalization starting from the empty map. -/
def normalizeAttributes (semverParse : SemverParser) (driver : String)
    (attrs : List (String × DeviceAttribute)) :
    Except String (List (String × List (String × AttrValue))) :=
  normalizeAttributesAux semverParse driver [] attrs

/-- The capacity normalization loop of DeviceMatches (lines 212-219), with
an explicit accumulator: same domain/identifier split, no value resolution
(a capacity is always a quantity), hence no failure. -/
def normalizeCapacityAux (driver : String)
    (acc : List (String × List (String × Quantity))) :
    List (String × Quantity) → List (String × List (String × Quantity))
  | [] => acc
  | (name, cap) :: rest =>
    normalizeCapacityAux driver
      (insertNested acc (parseQualifiedName name driver).1 (parseQualifiedName name driver).2 cap)
      rest

/-- Capacity normalization starting from the empty map. -/
def normalizeCapacity (driver : String) (caps : List (String × Quantity)) :
    List (String × List (String × Quantity)) :=
  normalizeCapacityAux driver [] caps

/-- The underlying types.NewStringInterfaceMap lookup: Find returns the
stored value with found=true for a present key and found=false otherwise. -/
def stringInterfaceMapFind (entries : List (String × α)) (key : String) : Option α :=
  entries.lookup key

/-- The wrapper built by newStringInterfaceMapWithDefault (compile.go lines
303-313): an underlying string-keyed map plus the shared default value. -/
structure MapperWithDefault (α : Type) where
  entries : List (String × α)
  defaultValue : α

/-- mapper.Find (compile.go lines 317-324): delegate to the underlying
map's Find; when it did not find the entry, return the default value and
still report found=true. -/
def MapperWithDefault.Find (m : MapperWithDefault α) (key : String) : α × Bool :=
  match stringInterfaceMapFind m.entries key with
  | some v => (v, true)
  | none => (m.defaultValue, true)

/-- The native value obtained from ref.Val.ConvertToNative(boolType): a Go
bool, or (defensively, as the code checks) some other native value with
its Go type description. -/
inductive NativeAny
  | natBool (b : Bool)
  | natOther (typeDesc : String)
deriving DecidableEq, Repr

/-- An opaque CEL runtime value as DeviceMatches sees it: its type name
(result.Type().TypeName()) and the outcome of converting it to a native
bool. -/
structure RefValModel where
  typeName : String
  convertToNativeBool : Except String NativeAny

/-- The variable binding DeviceMatches hands to Program.ContextEval (lines
221-227): the driver string and the two normalized nested maps (each then
wrapped with the default-value mapper). -/
structure Variables where
  driver : String
  attributes : List (String × List (String × AttrValue))
  capacity : List (String × List (String × Quantity))

/-- Builds the binding of compile.go lines 221-227. -/
def mkVariables (driver : String)
    (attrs : List (String × List (String × AttrValue)))
    (caps : List (String × List (String × Quantity))) : Variables :=
  { driver := driver, attributes := attrs, capacity := caps }

/-- The opaque Program.ContextEval call: given the variable binding it
either fails or yields a runtime value. -/
structure EvalOracle where
  contextEval : Variables → Except String RefValModel

/-- The (matched, error) pair returned by DeviceMatches (EvalDetails is an
opaque engine diagnostic and is dropped). -/
structure MatchResult where
  matched : Bool
  error : Option String
deriving DecidableEq, Repr

/-- DeviceMatches (compile.go lines 196-242): normalize attributes (any
error aborts with false), normalize capacity, bind the variables, run the
program, convert the result to a native bool; every failure returns false
together with the error, and only a successful bool conversion returns the
evaluated value with no error. -/
def DeviceMatches (_c : CompilationResult) (semverParse : SemverParser)
    (input : Device) (oracle : EvalOracle) : MatchResult :=
  match normalizeAttributes semverParse input.driver input.attributes with
  | .error e => { matched := false, error := some e }
  | .ok attrs =>
    match oracle.contextEval
        (mkVariables input.driver attrs (normalizeCapacity input.driver input.capacity)) with
    | .error e => { matched := false, error := some e }
    | .ok result =>
      match result.convertToNativeBool with
      | .error e =>
        { matched := false
          error := some ("CEL result of type " ++ result.typeName ++
            " could not be converted to bool: " ++ e) }
      | .ok (.natBool b) => { matched := b, error := none }
      | .ok (.natOther t) =>
        { matched := false
          error := some ("CEL native result value should have been a bool, got instead: " ++ t) }

/-! ## Helper lemmas -/

theorem splitAtSlash_eq_none_iff (l : List Char) : splitAtSlash l = none ↔ '/' ∉ l := by
  induction l with
  | nil => simp [splitAtSlash]
  | cons c rest ih =>
    by_cases hc : c = '/'
    · subst hc; simp [splitAtSlash]
    · cases hs : splitAtSlash rest with
      | none =>
        have hrest : '/' ∉ rest := ih.mp hs
        simp [splitAtSlash, hc, hs, hrest, Ne.symm hc]
      | some p =>
        have hrest : '/' ∈ rest := by
          by_contra hmem
          rw [ih.mpr hmem] at hs
          cases hs
        obtain ⟨d, i⟩ := p
        simp [splitAtSlash, hc, hs, hrest]

theorem splitAtSlash_append (d i : List Char) (hd : '/' ∉ d) :
    splitAtSlash (d ++ '/' :: i) = some (d, i) := by
  induction d with
  | nil => simp [splitAtSlash]
  | cons c rest ih =>
    have hc : ¬c = '/' := fun h => hd (h ▸ List.mem_cons_self c rest)
    have hrest : '/' ∉ rest := fun h => hd (List.mem_cons_of_mem c h)
    simp [splitAtSlash, hc, ih hrest]

theorem parse_msg_ne_unsupported (e : String) :
    ¬("parse semantic version: " ++ e = "unsupported attribute value") := by
  obtain ⟨l⟩ := e
  intro h
  simp [String.ext_iff] at h

/-! ## Claim theorems -/

/-- C4: parseQualifiedName splits the name on the first '/' into
(domain, identifier); when the name contains no '/', it returns
(default-domain, whole string); in particular both concrete examples of
the spec hold, and parsing is total (never fails). -/
theorem C4_parseQualifiedName_splits_on_first_slash (name defaultDomain : String) :
    ('/' ∉ name.toList → parseQualifiedName name defaultDomain = (defaultDomain, name)) ∧
    (∀ d i : List Char, name.toList = d ++ '/' :: i → '/' ∉ d →
      parseQualifiedName name defaultDomain = (String.mk d, String.mk i)) ∧
    parseQualifiedName "vendor/tier" "driverX" = ("vendor", "tier") ∧
    parseQualifiedName "tier" "driverX" = ("driverX", "tier") := by
  refine ⟨fun h => ?_, fun d i hsplit hd => ?_, by decide, by decide⟩
  · unfold parseQualifiedName
    rw [(splitAtSlash_eq_none_iff name.toList).mpr h]
  · unfold parseQualifiedName
    rw [hsplit, splitAtSlash_append d i hd]

/-- C4 witness: the theorem applied at a concrete qualified name. -/
theorem C4_parseQualifiedName_splits_on_first_slash_witness :
    parseQualifiedName "vendor.example/tier" "driverX" = ("vendor.example", "tier") :=
  (C4_parseQualifiedName_splits_on_first_slash "vendor.example/tier" "driverX").2.1
    "vendor.example".toList "tier".toList (by decide) (by decide)

/-- C2: Find on the default-value mapper reports found=true for every key;
a present key returns its stored per-domain value, an absent key returns
the shared default value. -/
theorem C2_mapper_find_always_found {α : Type} (entries : List (String × α))
    (defaultValue : α) (key : String) :
    (MapperWithDefault.Find ⟨entries, defaultValue⟩ key).2 = true ∧
    (∀ v, stringInterfaceMapFind entries key = some v →
      MapperWithDefault.Find ⟨entries, defaultValue⟩ key = (v, true)) ∧
    (stringInterfaceMapFind entries key = none →
      MapperWithDefault.Find ⟨entries, defaultValue⟩ key = (defaultValue, true)) := by
  refine ⟨?_, fun v hv => ?_, fun hn => ?_⟩
  · cases h : stringInterfaceMapFind entries key <;>
      simp [MapperWithDefault.Find, h]
  · simp [MapperWithDefault.Find, hv]
  · simp [MapperWithDefault.Find, hn]

/-- C2 witness: a present and an absent domain on a concrete mapper. -/
theorem C2_mapper_find_always_found_witness :
    MapperWithDefault.Find { entries := [("dom", (7 : Nat))], defaultValue := 0 } "absent"
      = (0, true) ∧
    MapperWithDefault.Find { entries := [("dom", (7 : Nat))], defaultValue := 0 } "dom"
      = (7, true) :=
  ⟨(C2_mapper_find_always_found [("dom", 7)] 0 "absent").2.2 (by decide),
   (C2_mapper_find_always_found [("dom", 7)] 0 "dom").2.1 7 (by decide)⟩

/-- C9: getAttributeValue resolves by fixed precedence — integer first,
then boolean, then string, then semantic version — and returns the
"unsupported attribute value" error exactly when no variant is populated. -/
theorem C9_getAttributeValue_precedence (semverParse : SemverParser)
    (attr : DeviceAttribute) :
    (∀ i, attr.intValue = some i →
      getAttributeValue semverParse attr = .ok (.int i)) ∧
    (∀ b, attr.intValue = none → attr.boolValue = some b →
      getAttributeValue semverParse attr = .ok (.bool b)) ∧
    (∀ s, attr.intValue = none → attr.boolValue = none → attr.stringValue = some s →
      getAttributeValue semverParse attr = .ok (.string s)) ∧
    (∀ vs, attr.intValue = none → attr.boolValue = none → attr.stringValue = none →
      attr.versionValue = some vs →
      getAttributeValue semverParse attr =
        (match semverParse vs with
         | .ok v => .ok (.semver v)
         | .error e => .error ("parse semantic version: " ++ e))) ∧
    (getAttributeValue semverParse attr = .error "unsupported attribute value" ↔
      attr.intValue = none ∧ attr.boolValue = none ∧ attr.stringValue = none ∧
        attr.versionValue = none) := by
  refine ⟨fun i hi => ?_, fun b h1 hb => ?_, fun s h1 h2 hs => ?_,
    fun vs h1 h2 h3 hv => ?_, ?_, ?_⟩
  · simp [getAttributeValue, hi]
  · simp [getAttributeValue, h1, hb]
  · simp [getAttributeValue, h1, h2, hs]
  · simp [getAttributeValue, h1, h2, h3, hv]
  · intro h
    cases h1 : attr.intValue with
    | some i => simp [getAttributeValue, h1] at h
    | none =>
    cases h2 : attr.boolValue with
    | some b => simp [getAttributeValue, h1, h2] at h
    | none =>
    cases h3 : attr.stringValue with
    | some s => simp [getAttributeValue, h1, h2, h3] at h
    | none =>
    cases h4 : attr.versionValue with
    | some vs =>
      cases hp : semverParse vs with
      | ok v => simp [getAttributeValue, h1, h2, h3, h4, hp] at h
      | error e =>
        simp [getAttributeValue, h1, h2, h3, h4, hp] at h
        exact absurd h (parse_msg_ne_unsupported e)
    | none => simp [h1, h2, h3, h4]
  · rintro ⟨h1, h2, h3, h4⟩
    simp [getAttributeValue, h1, h2, h3, h4]

/-- C9 witness: precedence on an attribute with both integer and string
populated, and the unsupported error on an empty attribute. -/
theorem C9_getAttributeValue_precedence_witness :
    getAttributeValue (fun s => .ok s)
      { intValue := some 5, boolValue := none, stringValue := some "x", versionValue := none }
      = .ok (.int 5) ∧
    getAttributeValue (fun s => .ok s)
      { intValue := none, boolValue := none, stringValue := none, versionValue := none }
      = .error "unsupported attribute value" :=
  ⟨(C9_getAttributeValue_precedence (fun s => .ok s)
      { intValue := some 5, boolValue := none, stringValue := some "x",
        versionValue := none }).1 5 rfl,
   (C9_getAttributeValue_precedence (fun s => .ok s)
      { intValue := none, boolValue := none, stringValue := none,
        versionValue := none }).2.2.2.2.2 ⟨rfl, rfl, rfl, rfl⟩⟩

/-- C1: once the expression parses and type-checks, a static output type
that is neither bool nor the dynamic/any type yields an Invalid error whose
detail names the expected type and the actual type; conversely a bool or
dynamic output type passes this gate, so any remaining error is Internal,
never Invalid. -/
theorem C1_output_type_gate (expression : String) (oracle : CELOracle)
    (henv : oracle.envError = none) (hcomp : oracle.compileIssues = none) :
    (oracle.outputType ≠ CELType.bool ∧ oracle.outputType ≠ CELType.any →
      (CompileCELExpression expression oracle).error =
        some { type := ErrorType.invalid,
               detail := "must evaluate to bool or the unknown type, not " ++
                 oracle.outputType.typeString }) ∧
    ((oracle.outputType = CELType.bool ∨ oracle.outputType = CELType.any) →
      ∀ err, (CompileCELExpression expression oracle).error = some err →
        err.type = ErrorType.internal) := by
  constructor
  · intro hne
    unfold CompileCELExpression
    rw [henv, hcomp]
    simp [resultError, hne]
  · intro hok err herr
    have hcond : ¬(oracle.outputType ≠ CELType.bool ∧ oracle.outputType ≠ CELType.any) := by
      rcases hok with h | h <;> simp [h]
    unfold CompileCELExpression at herr
    rw [henv, hcomp] at herr
    rcases hast : oracle.astToCheckedExprError with _ | a <;>
      rcases hprog : oracle.programError with _ | p <;>
      rcases hest : oracle.estimateCost with eerr | est <;>
      simp [resultError, hcond, hast, hprog, hest] at herr <;>
      simp [← herr]

/-- C1 witness: a string-typed expression is rejected as Invalid with the
expected and actual type in the detail; a bool-typed one passes the gate. -/
theorem C1_output_type_gate_witness :
    (CompileCELExpression "device.driver"
        { envError := none, compileIssues := none, outputType := CELType.other "string",
          astToCheckedExprError := none, programError := none,
          estimateCost := .ok { max := 3 } }).error =
      some { type := ErrorType.invalid,
             detail := "must evaluate to bool or the unknown type, not string" } :=
  (C1_output_type_gate "device.driver"
      { envError := none, compileIssues := none, outputType := CELType.other "string",
        astToCheckedExprError := none, programError := none,
        estimateCost := .ok { max := 3 } } rfl rfl).1 (by decide)

/-- C5: whenever the CompilationResult carries an Invalid error, its
Program field is empty and the result echoes the original expression. -/
theorem C5_invalid_error_no_program (expression : String) (oracle : CELOracle)
    (err : CELError)
    (herr : (CompileCELExpression expression oracle).error = some err)
    (hinv : err.type = ErrorType.invalid) :
    (CompileCELExpression expression oracle).program = none ∧
    (CompileCELExpression expression oracle).expression = expression := by
  unfold CompileCELExpression at herr ⊢
  rcases henv : oracle.envError with _ | e
  swap
  · simp [resultError]
  rcases hcomp : oracle.compileIssues with _ | issues
  swap
  · simp [resultError]
  by_cases hty : oracle.outputType ≠ CELType.bool ∧ oracle.outputType ≠ CELType.any
  · simp [resultError, hty]
  rcases hast : oracle.astToCheckedExprError with _ | a
  swap
  · simp [resultError, hty]
  rcases hprog : oracle.programError with _ | p
  swap
  · simp [resultError, hty]
  rcases hest : oracle.estimateCost with eerr | est
  · rw [henv, hcomp, hast, hprog, hest] at herr
    simp [hty] at herr
    simp [← herr] at hinv
  · rw [henv, hcomp, hast, hprog, hest] at herr
    simp [hty] at herr

/-- C5 witness: a syntax-error compilation at a concrete expression. -/
theorem C5_invalid_error_no_program_witness :
    (CompileCELExpression "device.driver =="
        { envError := none, compileIssues := some "syntax error", outputType := CELType.bool,
          astToCheckedExprError := none, programError := none,
          estimateCost := .ok { max := 0 } }).program = none ∧
    (CompileCELExpression "device.driver =="
        { envError := none, compileIssues := some "syntax error", outputType := CELType.bool,
          astToCheckedExprError := none, programError := none,
          estimateCost := .ok { max := 0 } }).expression = "device.driver ==" :=
  C5_invalid_error_no_program "device.driver =="
    { envError := none, compileIssues := some "syntax error", outputType := CELType.bool,
      astToCheckedExprError := none, programError := none,
      estimateCost := .ok { max := 0 } }
    { type := ErrorType.invalid, detail := "compilation failed: syntax error" }
    rfl rfl

/-- C6: when every stage up to program instantiation succeeds but cost
estimation fails, the result carries an Internal error together with the
program handle, and MaxCost stays at zero. -/
theorem C6_cost_estimation_failure_keeps_program (expression : String) (oracle : CELOracle)
    (henv : oracle.envError = none) (hcomp : oracle.compileIssues = none)
    (hty : oracle.outputType = CELType.bool ∨ oracle.outputType = CELType.any)
    (hast : oracle.astToCheckedExprError = none) (hprog : oracle.programError = none)
    (e : String) (hest : oracle.estimateCost = .error e) :
    (CompileCELExpression expression oracle).error =
      some { type := ErrorType.internal, detail := "cost estimation failed: " ++ e } ∧
    (CompileCELExpression expression oracle).program = some () ∧
    (CompileCELExpression expression oracle).maxCost = 0 := by
  have hcond : ¬(oracle.outputType ≠ CELType.bool ∧ oracle.outputType ≠ CELType.any) := by
    rcases hty with h | h <;> simp [h]
  unfold CompileCELExpression
  rw [henv, hcomp, hast, hprog, hest]
  simp [hcond]

/-- C6 witness: a concrete compilation whose cost estimation fails. -/
theorem C6_cost_estimation_failure_keeps_program_witness :
    (CompileCELExpression "true"
        { envError := none, compileIssues := none, outputType := CELType.bool,
          astToCheckedExprError := none, programError := none,
          estimateCost := .error "no cost model" }).error =
      some { type := ErrorType.internal, detail := "cost estimation failed: no cost model" } ∧
    (CompileCELExpression "true"
        { envError := none, compileIssues := none, outputType := CELType.bool,
          astToCheckedExprError := none, programError := none,
          estimateCost := .error "no cost model" }).program = some () ∧
    (CompileCELExpression "true"
        { envError := none, compileIssues := none, outputType := CELType.bool,
          astToCheckedExprError := none, programError := none,
          estimateCost := .error "no cost model" }).maxCost = 0 :=
  C6_cost_estimation_failure_keeps_program "true"
    { envError := none, compileIssues := none, outputType := CELType.bool,
      astToCheckedExprError := none, programError := none,
      estimateCost := .error "no cost model" }
    rfl rfl (Or.inl rfl) rfl rfl "no cost model" rfl

theorem assocInsert_ne_nil (m : List (String × α)) (k : String) (v : α) :
    assocInsert m k v ≠ [] := by
  cases m with
  | nil => simp [assocInsert]
  | cons p rest =>
    obtain ⟨k0, v0⟩ := p
    by_cases h : k0 = k <;> simp [assocInsert, h]

theorem insertNested_key_iff (m : List (String × List (String × α))) (d i : String)
    (v : α) (d' : String) :
    (∃ inner, (d', inner) ∈ insertNested m d i v) ↔
      (∃ inner, (d', inner) ∈ m) ∨ d' = d := by
  induction m with
  | nil => simp [insertNested]
  | cons p rest ih =>
    obtain ⟨d0, inner0⟩ := p
    have hins : insertNested ((d0, inner0) :: rest) d i v =
        if d0 = d then (d0, assocInsert inner0 i v) :: rest
        else (d0, inner0) :: insertNested rest d i v := rfl
    by_cases h : d0 = d
    · subst h
      rw [hins, if_pos rfl]
      constructor
      · rintro ⟨inner, hmem⟩
        rcases List.mem_cons.mp hmem with h1 | h1
        · exact Or.inr (congrArg Prod.fst h1)
        · exact Or.inl ⟨inner, List.mem_cons_of_mem _ h1⟩
      · rintro (⟨inner, hmem⟩ | heq)
        · rcases List.mem_cons.mp hmem with h1 | h1
          · exact ⟨assocInsert inner0 i v,
              List.mem_cons.mpr (Or.inl (by rw [show d' = d0 from congrArg Prod.fst h1]))⟩
          · exact ⟨inner, List.mem_cons_of_mem _ h1⟩
        · exact ⟨assocInsert inner0 i v, List.mem_cons.mpr (Or.inl (by rw [heq]))⟩
    · rw [hins, if_neg h]
      constructor
      · rintro ⟨inner, hmem⟩
        rcases List.mem_cons.mp hmem with h1 | h1
        · exact Or.inl ⟨inner, List.mem_cons.mpr (Or.inl h1)⟩
        · rcases ih.mp ⟨inner, h1⟩ with ⟨inner2, h2⟩ | h2
          · exact Or.inl ⟨inner2, List.mem_cons_of_mem _ h2⟩
          · exact Or.inr h2
      · rintro (⟨inner, hmem⟩ | heq)
        · rcases List.mem_cons.mp hmem with h1 | h1
          · exact ⟨inner, List.mem_cons.mpr (Or.inl h1)⟩
          · rcases ih.mpr (Or.inl ⟨inner, h1⟩) with ⟨inner2, h2⟩
            exact ⟨inner2, List.mem_cons_of_mem _ h2⟩
        · rcases ih.mpr (Or.inr heq) with ⟨inner2, h2⟩
          exact ⟨inner2, List.mem_cons_of_mem _ h2⟩

theorem insertNested_inner_ne_nil (m : List (String × List (String × α))) (d i : String)
    (v : α) (hm : ∀ p ∈ m, p.2 ≠ []) :
    ∀ p ∈ insertNested m d i v, p.2 ≠ [] := by
  induction m with
  | nil =>
    intro p hp
    simp [insertNested] at hp
    simp [hp]
  | cons q rest ih =>
    obtain ⟨d0, inner0⟩ := q
    intro p hp
    have hins : insertNested ((d0, inner0) :: rest) d i v =
        if d0 = d then (d0, assocInsert inner0 i v) :: rest
        else (d0, inner0) :: insertNested rest d i v := rfl
    by_cases h : d0 = d
    · subst h
      rw [hins, if_pos rfl] at hp
      rcases List.mem_cons.mp hp with h1 | h1
      · rw [h1]; exact assocInsert_ne_nil _ _ _
      · exact hm p (List.mem_cons_of_mem _ h1)
    · rw [hins, if_neg h] at hp
      rcases List.mem_cons.mp hp with h1 | h1
      · exact hm p (by rw [h1]; exact List.mem_cons_self _ _)
      · exact ih (fun q hq => hm q (List.mem_cons_of_mem _ hq)) p h1

theorem normalizeAttributesAux_ok_key_iff (sp : SemverParser) (driver : String)
    (l : List (String × DeviceAttribute)) :
    ∀ acc m, normalizeAttributesAux sp driver acc l = .ok m →
      ∀ d', (∃ inner, (d', inner) ∈ m) ↔
        (∃ inner, (d', inner) ∈ acc) ∨
          ∃ p ∈ l, (parseQualifiedName p.1 driver).1 = d' := by
  induction l with
  | nil =>
    intro acc m h d'
    simp only [normalizeAttributesAux] at h
    cases h
    simp
  | cons q rest ih =>
    obtain ⟨name, attr⟩ := q
    intro acc m h d'
    simp only [normalizeAttributesAux] at h
    cases hg : getAttributeValue sp attr with
    | error e => rw [hg] at h; cases h
    | ok v =>
      rw [hg] at h
      rw [ih _ m h d', insertNested_key_iff]
      constructor
      · rintro ((h1 | h1) | h1)
        · exact Or.inl h1
        · exact Or.inr ⟨(name, attr), List.mem_cons_self _ _, h1.symm⟩
        · rcases h1 with ⟨p, hp, h2⟩
          exact Or.inr ⟨p, List.mem_cons_of_mem _ hp, h2⟩
      · rintro (h1 | ⟨p, hp, h2⟩)
        · exact Or.inl (Or.inl h1)
        · rcases List.mem_cons.mp hp with hp1 | hp1
          · exact Or.inl (Or.inr (hp1 ▸ h2).symm)
          · exact Or.inr ⟨p, hp1, h2⟩

theorem normalizeAttributesAux_ok_ne_nil (sp : SemverParser) (driver : String)
    (l : List (String × DeviceAttribute)) :
    ∀ acc m, (∀ p ∈ acc, p.2 ≠ []) → normalizeAttributesAux sp driver acc l = .ok m →
      ∀ p ∈ m, p.2 ≠ [] := by
  induction l with
  | nil =>
    intro acc m hacc h
    simp only [normalizeAttributesAux] at h
    cases h
    exact hacc
  | cons q rest ih =>
    obtain ⟨name, attr⟩ := q
    intro acc m hacc h
    simp only [normalizeAttributesAux] at h
    cases hg : getAttributeValue sp attr with
    | error e => rw [hg] at h; cases h
    | ok v =>
      rw [hg] at h
      exact ih _ m (insertNested_inner_ne_nil _ _ _ _ hacc) h

theorem normalizeAttributesAux_error_exists (sp : SemverParser) (driver : String)
    (l : List (String × DeviceAttribute)) :
    ∀ acc, (∃ p ∈ l, ∃ e, getAttributeValue sp p.2 = .error e) →
      ∃ name attr e, (name, attr) ∈ l ∧ getAttributeValue sp attr = .error e ∧
        normalizeAttributesAux sp driver acc l =
          .error ("attribute " ++ name ++ ": " ++ e) := by
  induction l with
  | nil =>
    rintro acc ⟨p, hp, -⟩
    cases hp
  | cons q rest ih =>
    obtain ⟨name, attr⟩ := q
    rintro acc ⟨p, hp, e, he⟩
    cases hg : getAttributeValue sp attr with
    | error e0 =>
      refine ⟨name, attr, e0, List.mem_cons_self _ _, hg, ?_⟩
      simp [normalizeAttributesAux, hg]
    | ok v =>
      have hrest : ∃ p ∈ rest, ∃ e, getAttributeValue sp p.2 = .error e := by
        rcases List.mem_cons.mp hp with hp0 | hp0
        · rw [hp0] at he
          rw [hg] at he
          cases he
        · exact ⟨p, hp0, e, he⟩
      rcases ih
          (insertNested acc (parseQualifiedName name driver).1
            (parseQualifiedName name driver).2 v) hrest with
        ⟨name1, attr1, e1, hmem, he1, haux⟩
      refine ⟨name1, attr1, e1, List.mem_cons_of_mem _ hmem, he1, ?_⟩
      simp only [normalizeAttributesAux, hg]
      exact haux

theorem normalizeCapacityAux_key_iff (driver : String) (l : List (String × Quantity)) :
    ∀ acc, ∀ d', (∃ inner, (d', inner) ∈ normalizeCapacityAux driver acc l) ↔
      (∃ inner, (d', inner) ∈ acc) ∨
        ∃ p ∈ l, (parseQualifiedName p.1 driver).1 = d' := by
  induction l with
  | nil =>
    intro acc d'
    simp [normalizeCapacityAux]
  | cons q rest ih =>
    obtain ⟨name, cap⟩ := q
    intro acc d'
    simp only [normalizeCapacityAux]
    rw [ih _ d', insertNested_key_iff]
    constructor
    · rintro ((h1 | h1) | h1)
      · exact Or.inl h1
      · exact Or.inr ⟨(name, cap), List.mem_cons_self _ _, h1.symm⟩
      · rcases h1 with ⟨p, hp, h2⟩
        exact Or.inr ⟨p, List.mem_cons_of_mem _ hp, h2⟩
    · rintro (h1 | ⟨p, hp, h2⟩)
      · exact Or.inl (Or.inl h1)
      · rcases List.mem_cons.mp hp with hp1 | hp1
        · exact Or.inl (Or.inr (hp1 ▸ h2).symm)
        · exact Or.inr ⟨p, hp1, h2⟩

theorem normalizeCapacityAux_ne_nil (driver : String) (l : List (String × Quantity)) :
    ∀ acc, (∀ p ∈ acc, p.2 ≠ []) →
      ∀ p ∈ normalizeCapacityAux driver acc l, p.2 ≠ [] := by
  induction l with
  | nil =>
    intro acc hacc
    simpa [normalizeCapacityAux] using hacc
  | cons q rest ih =>
    obtain ⟨name, cap⟩ := q
    intro acc hacc
    simp only [normalizeCapacityAux]
    exact ih _ (insertNested_inner_ne_nil _ _ _ _ hacc)

theorem deviceMatches_shape (c : CompilationResult) (sp : SemverParser) (input : Device)
    (oracle : EvalOracle) :
    (DeviceMatches c sp input oracle).error = none ∨
      (DeviceMatches c sp input oracle).matched = false := by
  unfold DeviceMatches
  rcases normalizeAttributes sp input.driver input.attributes with e | attrs
  · right; rfl
  rcases he : oracle.contextEval
      (mkVariables input.driver attrs (normalizeCapacity input.driver input.capacity)) with
    e | result
  · right; simp [he]
  rcases hc : result.convertToNativeBool with e | nat
  · right; simp [he, hc]
  rcases nat with b | t
  · left; simp [he, hc]
  · right; simp [he, hc]

/-- C3: when at least one attribute of the device fails value resolution,
DeviceMatches aborts the whole evaluation with an error of the form
"attribute name: reason" identifying an offending qualified name, and the
returned boolean is false with the error present (no silent skip). -/
theorem C3_attribute_resolution_failure_aborts (c : CompilationResult) (sp : SemverParser)
    (input : Device) (oracle : EvalOracle)
    (h : ∃ p ∈ input.attributes, ∃ e, getAttributeValue sp p.2 = Except.error e) :
    ∃ name attr e, (name, attr) ∈ input.attributes ∧
      getAttributeValue sp attr = Except.error e ∧
      DeviceMatches c sp input oracle =
        { matched := false, error := some ("attribute " ++ name ++ ": " ++ e) } := by
  rcases normalizeAttributesAux_error_exists sp input.driver input.attributes [] h with
    ⟨name, attr, e, hmem, he, haux⟩
  refine ⟨name, attr, e, hmem, he, ?_⟩
  unfold DeviceMatches
  rw [show normalizeAttributes sp input.driver input.attributes =
    .error ("attribute " ++ name ++ ": " ++ e) from haux]

/-- C3 witness: a device with one attribute with no populated variant. -/
theorem C3_attribute_resolution_failure_aborts_witness :
    ∃ name attr e,
      (name, attr) ∈ [("a",
        { intValue := none, boolValue := none, stringValue := none,
          versionValue := none : DeviceAttribute })] ∧
      getAttributeValue (fun s => .ok s) attr = Except.error e ∧
      DeviceMatches
        { program := none, error := none, expression := "", outputType := none, maxCost := 0 }
        (fun s => .ok s)
        { driver := "drv",
          attributes := [("a",
            { intValue := none, boolValue := none, stringValue := none,
              versionValue := none })],
          capacity := [] }
        { contextEval := fun _ => .ok { typeName := "bool", convertToNativeBool := .ok (.natBool true) } } =
        { matched := false, error := some ("attribute " ++ name ++ ": " ++ e) } :=
  C3_attribute_resolution_failure_aborts
    { program := none, error := none, expression := "", outputType := none, maxCost := 0 }
    (fun s => .ok s)
    { driver := "drv",
      attributes := [("a",
        { intValue := none, boolValue := none, stringValue := none, versionValue := none })],
      capacity := [] }
    { contextEval := fun _ => .ok { typeName := "bool", convertToNativeBool := .ok (.natBool true) } }
    ⟨("a", { intValue := none, boolValue := none, stringValue := none, versionValue := none }),
      List.mem_cons_self _ _, "unsupported attribute value", rfl⟩

/-- C7: when the program runs to completion but the runtime value cannot be
converted to a native bool, DeviceMatches returns false together with a
conversion error naming the actual result type — never a silent false. -/
theorem C7_conversion_failure_is_error (c : CompilationResult) (sp : SemverParser)
    (input : Device) (oracle : EvalOracle)
    (attrs : List (String × List (String × AttrValue))) (rv : RefValModel) (e : String)
    (hn : normalizeAttributes sp input.driver input.attributes = Except.ok attrs)
    (he : oracle.contextEval
      (mkVariables input.driver attrs (normalizeCapacity input.driver input.capacity)) =
        Except.ok rv)
    (hc : rv.convertToNativeBool = Except.error e) :
    DeviceMatches c sp input oracle =
      { matched := false,
        error := some ("CEL result of type " ++ rv.typeName ++
          " could not be converted to bool: " ++ e) } := by
  unfold DeviceMatches
  simp [hn, he, hc]

/-- C7 witness: a concrete evaluation producing a non-convertible value. -/
theorem C7_conversion_failure_is_error_witness :
    DeviceMatches
      { program := some (), error := none, expression := "true", outputType := some CELType.any,
        maxCost := 1 }
      (fun s => .ok s)
      { driver := "drv", attributes := [], capacity := [] }
      { contextEval := fun _ =>
          .ok { typeName := "map", convertToNativeBool := .error "unsupported type conversion" } } =
      { matched := false,
        error := some ("CEL result of type " ++ "map" ++
          " could not be converted to bool: " ++ "unsupported type conversion") } :=
  C7_conversion_failure_is_error
    { program := some (), error := none, expression := "true", outputType := some CELType.any,
      maxCost := 1 }
    (fun s => .ok s)
    { driver := "drv", attributes := [], capacity := [] }
    { contextEval := fun _ =>
        .ok { typeName := "map", convertToNativeBool := .error "unsupported type conversion" } }
    [] { typeName := "map", convertToNativeBool := .error "unsupported type conversion" }
    "unsupported type conversion" rfl rfl rfl

/-- C8: on successful normalization, the nested attribute and capacity
maps are keyed domain to identifier to value, a domain key exists in the
outer map iff some input entry parsed to that domain, and every inner map
holds at least one identifier. -/
theorem C8_normalized_maps_invariant (sp : SemverParser) (driver : String)
    (attrs : List (String × DeviceAttribute)) (caps : List (String × Quantity))
    (m : List (String × List (String × AttrValue)))
    (h : normalizeAttributes sp driver attrs = .ok m) :
    (∀ domain, (∃ inner, (domain, inner) ∈ m) ↔
      ∃ p ∈ attrs, (parseQualifiedName p.1 driver).1 = domain) ∧
    (∀ p ∈ m, p.2 ≠ []) ∧
    (∀ domain, (∃ inner, (domain, inner) ∈ normalizeCapacity driver caps) ↔
      ∃ p ∈ caps, (parseQualifiedName p.1 driver).1 = domain) ∧
    (∀ p ∈ normalizeCapacity driver caps, p.2 ≠ []) := by
  refine ⟨fun domain => ?_, ?_, fun domain => ?_, ?_⟩
  · rw [normalizeAttributesAux_ok_key_iff sp driver attrs [] m h domain]
    simp
  · exact normalizeAttributesAux_ok_ne_nil sp driver attrs [] m (by simp) h
  · rw [show normalizeCapacity driver caps = normalizeCapacityAux driver [] caps from rfl,
      normalizeCapacityAux_key_iff driver caps [] domain]
    simp
  · exact normalizeCapacityAux_ne_nil driver caps [] (by simp)

/-- C8 witness: one qualified attribute and one unqualified capacity on a
concrete device. -/
theorem C8_normalized_maps_invariant_witness :
    ∃ inner, ("dom", inner) ∈ [("dom", [("x", AttrValue.int 5)])] :=
  ((C8_normalized_maps_invariant (fun s => .ok s) "drv"
      [("dom/x",
        { intValue := some 5, boolValue := none, stringValue := none, versionValue := none })]
      [("cap", { value := 16 })]
      [("dom", [("x", AttrValue.int 5)])] rfl).1 "dom").mpr
    ⟨("dom/x",
        { intValue := some 5, boolValue := none, stringValue := none, versionValue := none }),
      List.mem_cons_self _ _, rfl⟩

/-- C10: whenever DeviceMatches returns an error — from normalization,
execution, or result conversion — the boolean alongside it is false. -/
theorem C10_error_implies_false (c : CompilationResult) (sp : SemverParser)
    (input : Device) (oracle : EvalOracle) (e : String)
    (h : (DeviceMatches c sp input oracle).error = some e) :
    (DeviceMatches c sp input oracle).matched = false := by
  rcases deviceMatches_shape c sp input oracle with hnone | hfalse
  · rw [h] at hnone
    cases hnone
  · exact hfalse

/-- C10 witness: an evaluation failing at program execution. -/
theorem C10_error_implies_false_witness :
    (DeviceMatches
      { program := some (), error := none, expression := "true", outputType := some CELType.bool,
        maxCost := 1 }
      (fun s => .ok s)
      { driver := "drv", attributes := [], capacity := [] }
      { contextEval := fun _ => .error "actual cost limit exceeded" }).matched = false :=
  C10_error_implies_false
    { program := some (), error := none, expression := "true", outputType := some CELType.bool,
      maxCost := 1 }
    (fun s => .ok s)
    { driver := "drv", attributes := [], capacity := [] }
    { contextEval := fun _ => .error "actual cost limit exceeded" }
    "actual cost limit exceeded" rfl

end DRACel
